import Mathlib

/-!
Shallow embedding of the track repository of `music-tracker-api`
(file `src/db.ts`-style module: Mongoose track collection + Cloudinary
media store), together with proofs about its operations.

The Track Store is modelled as the list of documents in insertion order;
`findOne` / `findOneAndUpdate` / `findOneAndDelete` keyed by `{ id }` act
on the first matching document.  The Media Store (Cloudinary) is modelled
as the list of public ids currently hosted; `uploader.destroy` removes a
public id.  Clock reads (`Date.now()`, `new Date().toISOString()`) are
passed in explicitly: `nowMs : Nat` for the millisecond counter and
`nowIso : String` for the timestamp string.
-/

namespace MusicTracker

/-- Track document, after the Mongoose schema (`trackSchema`). -/
structure Track where
  id : String
  title : String
  artist : String
  album : String
  genres : List String
  coverImage : String
  audioFile : String
  slug : String
  createdAt : String
  updatedAt : String
deriving Repr, DecidableEq

/-- Fields accepted by `createTrack` (`Omit<Track, 'id'|'createdAt'|'updatedAt'>`). -/
structure NewTrack where
  title : String
  artist : String
  album : String
  genres : List String
  coverImage : String
  audioFile : String
  slug : String
deriving Repr, DecidableEq

/-- Partial update object (`Partial<Track>`): every field optional,
absent fields leave the document unchanged. -/
structure TrackUpdate where
  id : Option String := none
  title : Option String := none
  artist : Option String := none
  album : Option String := none
  genres : Option (List String) := none
  coverImage : Option String := none
  audioFile : Option String := none
  slug : Option String := none
  createdAt : Option String := none
  updatedAt : Option String := none
deriving Repr, DecidableEq

/-- Combined state: the Track Store (Mongo collection, insertion order)
and the Media Store (Cloudinary public ids currently hosted). -/
structure Store where
  tracks : List Track
  media : List String
deriving Repr, DecidableEq

/-- Response shape of `deleteMultipleTracks`. -/
structure BatchDeleteResponse where
  success : List String
  failed : List String
deriving Repr, DecidableEq

/-- Result shape of `getTracks`. -/
structure TracksResult where
  tracks : List Track
  total : Nat
deriving Repr, DecidableEq

/-- Query parameters of `getTracks`; `none` models an absent key. -/
structure QueryParams where
  search : Option String := none
  genre : Option String := none
  artist : Option String := none
  sort : Option String := none
  order : Option String := none
  page : Option Nat := none
  limit : Option Nat := none
deriving Repr, DecidableEq

/-- The configured Cloudinary folder (`process.env.CLOUDINARY_FOLDER || 'tracks'`,
modelled with its default value). -/
def cloudFolder : String := "tracks"

/-- Id generator of `createTrack`: `Date.now().toString()`. -/
def genId (nowMs : Nat) : String := toString nowMs

/-- Source: `getTrackById` — `TrackModel.findOne({ id })`, `null` when absent. -/
def getTrackById (st : Store) (id : String) : Option Track :=
  st.tracks.find? (fun t => t.id == id)

/-- Source: `getTrackBySlug` — `TrackModel.findOne({ slug })`, `null` when absent. -/
def getTrackBySlug (st : Store) (slug : String) : Option Track :=
  st.tracks.find? (fun t => t.slug == slug)

/-- Effect of the update document `{ ...updates, updatedAt: now }` on one
document: present fields of `updates` are written, and `updatedAt` is
always overwritten with the current time (the spread puts it last). -/
def applyUpdate (u : TrackUpdate) (nowIso : String) (t : Track) : Track :=
  { id := u.id.getD t.id
    title := u.title.getD t.title
    artist := u.artist.getD t.artist
    album := u.album.getD t.album
    genres := u.genres.getD t.genres
    coverImage := u.coverImage.getD t.coverImage
    audioFile := u.audioFile.getD t.audioFile
    slug := u.slug.getD t.slug
    createdAt := u.createdAt.getD t.createdAt
    updatedAt := nowIso }

/-- Apply the update to the first document matching the id; returns the
updated document (`{ new: true }`) and the new collection. -/
def updateFirst (id : String) (u : TrackUpdate) (nowIso : String) :
    List Track → Option Track × List Track
  | [] => (none, [])
  | t :: ts =>
    if t.id == id then
      (some (applyUpdate u nowIso t), applyUpdate u nowIso t :: ts)
    else
      let r := updateFirst id u nowIso ts
      (r.1, t :: r.2)

/-- Source: `updateTrack` — `TrackModel.findOneAndUpdate({ id },
{ ...updates, updatedAt: new Date().toISOString() }, { new: true })`;
returns the updated document or `null`. -/
def updateTrack (st : Store) (id : String) (u : TrackUpdate) (nowIso : String) :
    Option Track × Store :=
  let r := updateFirst id u nowIso st.tracks
  (r.1, { st with tracks := r.2 })

/-- Source: `deleteAudioFile` — looks the track up, returns `false` when the
track is absent or `audioFile` is falsy (empty); otherwise destroys the
Cloudinary object `folder/id` and clears the field via `updateTrack`. -/
def deleteAudioFile (st : Store) (id : String) (nowIso : String) : Bool × Store :=
  match getTrackById st id with
  | none => (false, st)
  | some t =>
    if t.audioFile == "" then (false, st)
    else
      let publicId := cloudFolder ++ "/" ++ id
      let st1 : Store := { st with media := st.media.filter (fun m => m != publicId) }
      let st2 := (updateTrack st1 id { audioFile := some "" } nowIso).2
      (true, st2)

/-- Remove the first document matching the id, returning it
(`findOneAndDelete({ id })`). -/
def removeFirst (id : String) : List Track → Option Track × List Track
  | [] => (none, [])
  | t :: ts =>
    if t.id == id then (some t, ts)
    else
      let r := removeFirst id ts
      (r.1, t :: r.2)

/-- Source: `deleteTrack` — `findOneAndDelete({ id })` first; when the removed
document had a truthy `audioFile`, then calls `deleteAudioFile id`. -/
def deleteTrack (st : Store) (id : String) (nowIso : String) : Bool × Store :=
  let r := removeFirst id st.tracks
  match r.1 with
  | none => (false, st)
  | some t =>
    let st1 : Store := { st with tracks := r.2 }
    if t.audioFile == "" then (true, st1)
    else (true, (deleteAudioFile st1 id nowIso).2)

/-- Source: `createTrack` — id is `Date.now().toString()`, both timestamps are
the current time; `TrackModel.create` is rejected by the collection's unique
indexes on `id` and `slug` (Mongo duplicate-key error), otherwise inserts. -/
def createTrack (st : Store) (tr : NewTrack) (nowMs : Nat) (nowIso : String) :
    Except String (Track × Store) :=
  let id := genId nowMs
  if st.tracks.any (fun t => t.id == id || t.slug == tr.slug) then
    Except.error "E11000 duplicate key"
  else
    let t : Track :=
      { id := id, title := tr.title, artist := tr.artist, album := tr.album
        genres := tr.genres, coverImage := tr.coverImage, audioFile := tr.audioFile
        slug := tr.slug, createdAt := nowIso, updatedAt := nowIso }
    Except.ok (t, { st with tracks := st.tracks ++ [t] })

/-- Source: `deleteMultipleTracks` — sequential loop over the ids, pushing each
id into `success` when `deleteTrack` returned `true`, into `failed` otherwise. -/
def deleteMultipleTracks (st : Store) (ids : List String) (nowIso : String) :
    BatchDeleteResponse × Store :=
  match ids with
  | [] => (⟨[], []⟩, st)
  | i :: rest =>
    let d := deleteTrack st i nowIso
    let r := deleteMultipleTracks d.2 rest nowIso
    if d.1 then (⟨i :: r.1.success, r.1.failed⟩, r.2)
    else (⟨r.1.success, i :: r.1.failed⟩, r.2)

/-- Substring test on character lists (helper for the regex filters). -/
def hasSub (pat : List Char) : List Char → Bool
  | [] => pat.isEmpty
  | c :: cs => pat.isPrefixOf (c :: cs) || hasSub pat cs

/-- Case-insensitive substring match, modelling `new RegExp(input, 'i')`
applied to a field (for pattern inputs without regex metacharacters). -/
def containsCI (hay pat : String) : Bool :=
  hasSub pat.toLower.toList hay.toLower.toList

/-- Filter predicate built by `getTracks`: a truthy `search` adds an `$or`
regex over `title`/`artist`/`album`; a truthy `genre` requires the genres
array to contain the value; a truthy `artist` adds a regex on `artist`.
Falsy (absent or empty-string) parameters add no condition. -/
def matchesFilter (p : QueryParams) (t : Track) : Bool :=
  (match p.search with
   | some s => if s == "" then true
       else containsCI t.title s || containsCI t.artist s || containsCI t.album s
   | none => true)
  && (match p.genre with
      | some g => if g == "" then true else t.genres.contains g
      | none => true)
  && (match p.artist with
      | some a => if a == "" then true else containsCI t.artist a
      | none => true)

/-- Value of a named field of a document, as the sort key
(`.sort({ [sort]: ... })`); the array-valued `genres` and unknown field
names are modelled as a constant key. -/
def getField (t : Track) (f : String) : String :=
  if f == "id" then t.id
  else if f == "title" then t.title
  else if f == "artist" then t.artist
  else if f == "album" then t.album
  else if f == "coverImage" then t.coverImage
  else if f == "audioFile" then t.audioFile
  else if f == "slug" then t.slug
  else if f == "createdAt" then t.createdAt
  else if f == "updatedAt" then t.updatedAt
  else ""

/-- Sort of the filtered documents on the requested field
(`.sort({ [sort]: order === 'asc' ? 1 : -1 })`). -/
def sortTracks (f : String) (asc : Bool) (ts : List Track) : List Track :=
  if asc then ts.insertionSort (fun a b => getField a f ≤ getField b f)
  else ts.insertionSort (fun a b => getField b f ≤ getField a f)

/-- Source: `getTracks` — defaults `search=''`, `sort='createdAt'`,
`order='desc'`, `page=1`, `limit=10`; counts all matches before pagination,
then sorts, skips `(page-1)*limit` and applies `.limit(limit)`.  MongoDB
semantics of the cursor modifiers: a negative skip value (here possible as
`page = 0` with a positive limit, the skip product being computed in `Int`)
makes the query fail with an error, and `.limit(0)` means no limit at all,
so every record after the skip is returned. -/
def getTracks (st : Store) (p : QueryParams) : Except String TracksResult :=
  let sortF := p.sort.getD "createdAt"
  let order := p.order.getD "desc"
  let page := p.page.getD 1
  let limit := p.limit.getD 10
  let filtered := st.tracks.filter (matchesFilter p)
  let total := filtered.length
  let sorted := sortTracks sortF (order == "asc") filtered
  let skip : Int := ((page : Int) - 1) * (limit : Int)
  if skip < 0 then Except.error "skip value must be non-negative"
  else
    let afterSkip := sorted.drop skip.toNat
    Except.ok { tracks := if limit == 0 then afterSkip else afterSkip.take limit,
                total := total }

/-- Numeric value of a decimal digit character. -/
def charVal (c : Char) : Nat := c.toNat - 48

/-- Value of a most-significant-first list of decimal digit characters. -/
def evalDigits : List Char → Nat
  | [] => 0
  | c :: cs => charVal c * 10 ^ cs.length + evalDigits cs

/-! Concrete fixture data used by counterexamples and witnesses. -/

/-- A stored track with a non-empty `audioFile`. -/
def trk1 : Track :=
  { id := "1", title := "A", artist := "X", album := "", genres := [],
    coverImage := "", audioFile := "u", slug := "s1", createdAt := "c", updatedAt := "c" }

/-- Store holding `trk1` and its hosted media object `tracks/1`. -/
def stMedia : Store := { tracks := [trk1], media := ["tracks/1"] }

/-- Store holding `trk1` only (no media). -/
def stU : Store := { tracks := [trk1], media := [] }

/-- A stored track without audio, id `a`. -/
def trkA : Track :=
  { id := "a", title := "A", artist := "X", album := "", genres := [],
    coverImage := "", audioFile := "", slug := "sa", createdAt := "c", updatedAt := "c" }

/-- A stored track without audio, id `b`. -/
def trkB : Track := { trkA with id := "b", slug := "sb" }

/-- Store holding tracks `a` and `b`. -/
def stAB : Store := { tracks := [trkA, trkB], media := [] }

/-- Creation payload with slug `s1`. -/
def ntr1 : NewTrack :=
  { title := "A", artist := "X", album := "", genres := [], coverImage := "",
    audioFile := "", slug := "s1" }

/-- Creation payload with a different slug `s2`. -/
def ntr2 : NewTrack := { ntr1 with slug := "s2" }

/-- The track produced by `createTrack` on the empty store at instant 5. -/
def trkFive : Track :=
  { id := "5", title := "A", artist := "X", album := "", genres := [],
    coverImage := "", audioFile := "", slug := "s1", createdAt := "t", updatedAt := "t" }

/-- The store after that first create. -/
def stFive : Store := { tracks := [trkFive], media := [] }

/-- Empty query parameter record. -/
def pE : QueryParams := {}

/-- Totality of the ascending key order used by `sortTracks`. -/
instance keyLE_total (f : String) :
    IsTotal Track (fun a b => getField a f ≤ getField b f) :=
  ⟨fun a b => le_total (getField a f) (getField b f)⟩

/-- Transitivity of the ascending key order used by `sortTracks`. -/
instance keyLE_trans (f : String) :
    IsTrans Track (fun a b => getField a f ≤ getField b f) :=
  ⟨fun _ _ _ h1 h2 => le_trans h1 h2⟩

/-- Totality of the descending key order used by `sortTracks`. -/
instance keyGE_total (f : String) :
    IsTotal Track (fun a b => getField b f ≤ getField a f) :=
  ⟨fun a b => le_total (getField b f) (getField a f)⟩

/-- Transitivity of the descending key order used by `sortTracks`. -/
instance keyGE_trans (f : String) :
    IsTrans Track (fun a b => getField b f ≤ getField a f) :=
  ⟨fun _ _ _ h1 h2 => le_trans h2 h1⟩

/-! Helper lemmas about the list-level operations. -/

theorem applyUpdate_id_of_none {u : TrackUpdate} (h : u.id = none) (now : String)
    (t : Track) : (applyUpdate u now t).id = t.id := by
  simp [applyUpdate, h]

theorem updateFirst_map_id {u : TrackUpdate} (h : u.id = none) (i now : String) :
    ∀ l : List Track, ((updateFirst i u now l).2).map Track.id = l.map Track.id := by
  intro l
  induction l with
  | nil => rfl
  | cons t ts ih =>
    by_cases hb : (t.id == i) = true
    · simp [updateFirst, hb, applyUpdate_id_of_none h]
    · simp [updateFirst, hb, ih]

theorem updateTrack_map_id {u : TrackUpdate} (h : u.id = none)
    (st : Store) (i now : String) :
    ((updateTrack st i u now).2).tracks.map Track.id = st.tracks.map Track.id := by
  simp [updateTrack, updateFirst_map_id h]

theorem deleteAudioFile_map_id (st : Store) (i now : String) :
    ((deleteAudioFile st i now).2).tracks.map Track.id = st.tracks.map Track.id := by
  unfold deleteAudioFile
  cases hf : getTrackById st i with
  | none => rfl
  | some t =>
    by_cases ha : (t.audioFile == "") = true
    · simp [ha]
    · simp only [ha, Bool.false_eq_true, if_false]
      exact updateTrack_map_id rfl _ _ _

theorem removeFirst_map_id (i : String) :
    ∀ l : List Track, ((removeFirst i l).2).map Track.id = (l.map Track.id).erase i := by
  intro l
  induction l with
  | nil => rfl
  | cons t ts ih =>
    by_cases hb : (t.id == i) = true
    · simp [removeFirst, hb, List.erase_cons, beq_iff_eq.mp hb]
    · have : (t.id == i) = false := by simpa using hb
      simp [removeFirst, this, List.erase_cons, ih]

theorem removeFirst_fst_none (i : String) :
    ∀ l : List Track, i ∉ l.map Track.id → (removeFirst i l).1 = none := by
  intro l
  induction l with
  | nil => intro _; rfl
  | cons t ts ih =>
    intro hmem
    simp only [List.map_cons, List.mem_cons, not_or] at hmem
    have hb : (t.id == i) = false := beq_eq_false_iff_ne.mpr fun h2 => hmem.1 h2.symm
    simp [removeFirst, hb, ih hmem.2]

theorem removeFirst_fst_some (i : String) :
    ∀ l : List Track, i ∈ l.map Track.id → ∃ t, (removeFirst i l).1 = some t := by
  intro l
  induction l with
  | nil => simp
  | cons t ts ih =>
    intro hmem
    by_cases hb : (t.id == i) = true
    · exact ⟨t, by simp [removeFirst, hb]⟩
    · have hb2 : (t.id == i) = false := by simpa using hb
      rw [List.map_cons, List.mem_cons] at hmem
      have hmem2 : i ∈ ts.map Track.id := by
        rcases hmem with h1 | h1
        · exact absurd h1.symm (beq_eq_false_iff_ne.mp hb2)
        · exact h1
      obtain ⟨t2, ht2⟩ := ih hmem2
      exact ⟨t2, by simp [removeFirst, hb2, ht2]⟩

theorem deleteTrack_fst_true_iff (st : Store) (i now : String) :
    (deleteTrack st i now).1 = true ↔ i ∈ st.tracks.map Track.id := by
  constructor
  · intro h
    by_contra hmem
    have := removeFirst_fst_none i st.tracks hmem
    simp [deleteTrack, this] at h
  · intro hmem
    obtain ⟨t, ht⟩ := removeFirst_fst_some i st.tracks hmem
    by_cases ha : (t.audioFile == "") = true
    · simp [deleteTrack, ht, ha]
    · simp [deleteTrack, ht, ha]

theorem deleteTrack_not_found (st : Store) (i now : String)
    (h : i ∉ st.tracks.map Track.id) : deleteTrack st i now = (false, st) := by
  simp [deleteTrack, removeFirst_fst_none i st.tracks h]

theorem deleteTrack_fst_false (st : Store) (i now : String)
    (h : (deleteTrack st i now).1 = false) : (deleteTrack st i now).2 = st := by
  cases hr : (removeFirst i st.tracks).1 with
  | none => simp [deleteTrack, hr]
  | some t =>
    exfalso
    by_cases ha : (t.audioFile == "") = true
    · simp [deleteTrack, hr, ha] at h
    · simp [deleteTrack, hr, ha] at h

theorem deleteTrack_map_id (st : Store) (i now : String) :
    ((deleteTrack st i now).2).tracks.map Track.id = (st.tracks.map Track.id).erase i := by
  cases hr : (removeFirst i st.tracks).1 with
  | none =>
    have hmem : i ∉ st.tracks.map Track.id := by
      by_contra hc
      obtain ⟨t, ht⟩ := removeFirst_fst_some i st.tracks hc
      rw [ht] at hr
      exact Option.noConfusion hr
    simp [deleteTrack, hr, List.erase_of_not_mem hmem]
  | some t =>
    by_cases ha : (t.audioFile == "") = true
    · simp [deleteTrack, hr, ha, removeFirst_map_id]
    · simp only [deleteTrack, hr, ha, Bool.false_eq_true, if_false]
      rw [deleteAudioFile_map_id]
      simp [removeFirst_map_id]

theorem dmt_cons_true {st : Store} {i now : String} (rest : List String)
    (h : (deleteTrack st i now).1 = true) :
    deleteMultipleTracks st (i :: rest) now
      = (⟨i :: (deleteMultipleTracks (deleteTrack st i now).2 rest now).1.success,
          (deleteMultipleTracks (deleteTrack st i now).2 rest now).1.failed⟩,
         (deleteMultipleTracks (deleteTrack st i now).2 rest now).2) := by
  simp [deleteMultipleTracks, h]

theorem dmt_cons_false {st : Store} {i now : String} (rest : List String)
    (h : (deleteTrack st i now).1 = false) :
    deleteMultipleTracks st (i :: rest) now
      = (⟨(deleteMultipleTracks st rest now).1.success,
          i :: (deleteMultipleTracks st rest now).1.failed⟩,
         (deleteMultipleTracks st rest now).2) := by
  have h2 := deleteTrack_fst_false st i now h
  rw [deleteMultipleTracks]
  rw [h2] at *
  simp [h, h2]

theorem dmt_success_sublist (now : String) :
    ∀ (ids : List String) (st : Store),
      ((deleteMultipleTracks st ids now).1.success).Sublist ids := by
  intro ids
  induction ids with
  | nil => intro st; simp [deleteMultipleTracks]
  | cons i rest ih =>
    intro st
    cases hd : (deleteTrack st i now).1 with
    | true => rw [dmt_cons_true rest hd]; exact (ih _).cons₂ i
    | false => rw [dmt_cons_false rest hd]; exact (ih _).cons i

theorem dmt_failed_sublist (now : String) :
    ∀ (ids : List String) (st : Store),
      ((deleteMultipleTracks st ids now).1.failed).Sublist ids := by
  intro ids
  induction ids with
  | nil => intro st; simp [deleteMultipleTracks]
  | cons i rest ih =>
    intro st
    cases hd : (deleteTrack st i now).1 with
    | true => rw [dmt_cons_true rest hd]; exact (ih _).cons i
    | false => rw [dmt_cons_false rest hd]; exact (ih _).cons₂ i

theorem dmt_length (now : String) :
    ∀ (ids : List String) (st : Store),
      (deleteMultipleTracks st ids now).1.success.length
        + (deleteMultipleTracks st ids now).1.failed.length = ids.length := by
  intro ids
  induction ids with
  | nil => intro st; simp [deleteMultipleTracks]
  | cons i rest ih =>
    intro st
    cases hd : (deleteTrack st i now).1 with
    | true =>
      rw [dmt_cons_true rest hd]
      have := ih (deleteTrack st i now).2
      simp only [List.length_cons]
      omega
    | false =>
      rw [dmt_cons_false rest hd]
      have := ih st
      simp only [List.length_cons]
      omega

theorem dmt_count (now : String) :
    ∀ (ids : List String) (st : Store), (st.tracks.map Track.id).Nodup → ∀ a : String,
      (deleteMultipleTracks st ids now).1.success.count a ≤ 1 ∧
      (deleteMultipleTracks st ids now).1.success.count a
        + (deleteMultipleTracks st ids now).1.failed.count a = ids.count a ∧
      (a ∉ st.tracks.map Track.id → a ∉ (deleteMultipleTracks st ids now).1.success) := by
  intro ids
  induction ids with
  | nil =>
    intro st _ a
    refine ⟨by simp [deleteMultipleTracks], by simp [deleteMultipleTracks], ?_⟩
    intro _
    simp [deleteMultipleTracks]
  | cons i rest ih =>
    intro st hnd a
    cases hd : (deleteTrack st i now).1 with
    | false =>
      rw [dmt_cons_false rest hd]
      obtain ⟨ih1, ih2, ih3⟩ := ih st hnd a
      refine ⟨ih1, ?_, ih3⟩
      simp only [List.count_cons]
      omega
    | true =>
      have hidmem : i ∈ st.tracks.map Track.id :=
        (deleteTrack_fst_true_iff st i now).mp hd
      have hmap : ((deleteTrack st i now).2).tracks.map Track.id
          = (st.tracks.map Track.id).erase i := deleteTrack_map_id st i now
      have hnd2 : (((deleteTrack st i now).2).tracks.map Track.id).Nodup := by
        rw [hmap]; exact hnd.erase i
      have hinot : i ∉ ((deleteTrack st i now).2).tracks.map Track.id := by
        rw [hmap]; exact hnd.not_mem_erase
      rw [dmt_cons_true rest hd]
      obtain ⟨ih1, ih2, ih3⟩ := ih (deleteTrack st i now).2 hnd2 a
      obtain ⟨_, _, ihi3⟩ := ih (deleteTrack st i now).2 hnd2 i
      have hzero : (deleteMultipleTracks (deleteTrack st i now).2 rest now).1.success.count i
          = 0 := List.count_eq_zero.mpr (ihi3 hinot)
      refine ⟨?_, ?_, ?_⟩
      · by_cases hai : i = a
        · subst hai
          simp only [List.count_cons, hzero]
          simp
        · have : (i == a) = false := beq_eq_false_iff_ne.mpr hai
          simp only [List.count_cons, this, Bool.false_eq_true, if_false]
          omega
      · simp only [List.count_cons]
        omega
      · intro hamem
        have hne : a ≠ i := fun h => hamem (h ▸ hidmem)
        have hamem2 : a ∉ ((deleteTrack st i now).2).tracks.map Track.id := by
          rw [hmap]
          intro hc
          exact hamem (List.mem_of_mem_erase hc)
        intro hc
        rcases List.mem_cons.mp hc with h1 | h1
        · exact hne h1
        · exact ih3 hamem2 h1

theorem updateFirst_found {u : TrackUpdate} (h : u.id = none) (i now : String) :
    ∀ (l : List Track) (t : Track), l.find? (fun x => x.id == i) = some t →
      (updateFirst i u now l).1 = some (applyUpdate u now t) ∧
      ((updateFirst i u now l).2).find? (fun x => x.id == i)
        = some (applyUpdate u now t) := by
  intro l
  induction l with
  | nil => intro t ht; simp at ht
  | cons x xs ih =>
    intro t ht
    rw [List.find?_cons_eq_some] at ht
    rcases ht with ⟨hb, rfl⟩ | ⟨hnb, ht⟩
    · have hb2 : (x.id == i) = true := hb
      have hid : ((applyUpdate u now x).id == i) = true := by
        rw [applyUpdate_id_of_none h]; exact hb2
      refine ⟨?_, ?_⟩
      · simp [updateFirst, hb2]
      · simp only [updateFirst, hb2, if_true]
        exact List.find?_cons_of_pos _ hid
    · have hb2 : (x.id == i) = false := by simpa using hnb
      obtain ⟨ih1, ih2⟩ := ih t ht
      refine ⟨?_, ?_⟩
      · simp [updateFirst, hb2, ih1]
      · simp only [updateFirst, hb2, Bool.false_eq_true, if_false]
        calc List.find? (fun z => z.id == i) (x :: (updateFirst i u now xs).2)
            = List.find? (fun z => z.id == i) ((updateFirst i u now xs).2) :=
              List.find?_cons_of_neg _ (by simp [hb2])
          _ = some (applyUpdate u now t) := ih2

theorem updateFirst_fst_id {u : TrackUpdate} (h : u.id = none) (i now : String) :
    ∀ (l : List Track) (t : Track), (updateFirst i u now l).1 = some t → t.id = i := by
  intro l
  induction l with
  | nil => intro t ht; exact Option.noConfusion ht
  | cons x xs ih =>
    intro t ht
    by_cases hb : (x.id == i) = true
    · simp only [updateFirst, hb, if_true] at ht
      have : applyUpdate u now x = t := Option.some_inj.mp ht
      rw [← this, applyUpdate_id_of_none h]
      exact beq_iff_eq.mp hb
    · have hb2 : (x.id == i) = false := by simpa using hb
      simp only [updateFirst, hb2, Bool.false_eq_true, if_false] at ht
      exact ih t ht

theorem length_sortTracks (f : String) (asc : Bool) (l : List Track) :
    (sortTracks f asc l).length = l.length := by
  unfold sortTracks
  cases asc <;> simp

theorem getTracks_ok_of_page_pos (st : Store) (p : QueryParams)
    (hp : 1 ≤ p.page.getD 1) :
    getTracks st p = Except.ok
      { tracks := if p.limit.getD 10 == 0 then
            (sortTracks (p.sort.getD "createdAt") ((p.order.getD "desc") == "asc")
              (st.tracks.filter (matchesFilter p))).drop
                ((p.page.getD 1 - 1) * p.limit.getD 10)
          else ((sortTracks (p.sort.getD "createdAt") ((p.order.getD "desc") == "asc")
              (st.tracks.filter (matchesFilter p))).drop
                ((p.page.getD 1 - 1) * p.limit.getD 10)).take (p.limit.getD 10),
        total := (st.tracks.filter (matchesFilter p)).length } := by
  have hcast : (((p.page.getD 1 - 1) * p.limit.getD 10 : Nat) : Int)
      = ((p.page.getD 1 : Int) - 1) * (p.limit.getD 10 : Int) := by
    rw [Nat.cast_mul, Nat.cast_sub hp, Nat.cast_one]
  have hnonneg : ¬(((p.page.getD 1 : Int) - 1) * (p.limit.getD 10 : Int) < 0) := by
    rw [← hcast]
    exact not_lt.mpr (Int.natCast_nonneg _)
  have htonat : (((p.page.getD 1 : Int) - 1) * (p.limit.getD 10 : Int)).toNat
      = (p.page.getD 1 - 1) * p.limit.getD 10 := by
    rw [← hcast]
    exact Int.toNat_natCast _
  simp only [getTracks]
  rw [if_neg hnonneg, htonat]

theorem getTracks_total (st : Store) (q : QueryParams) (r : TracksResult)
    (h : getTracks st q = Except.ok r) :
    r.total = (st.tracks.filter (matchesFilter q)).length := by
  simp only [getTracks] at h
  by_cases hs : ((q.page.getD 1 : Int) - 1) * (q.limit.getD 10 : Int) < 0
  · rw [if_pos hs] at h
    exact Except.noConfusion h
  · rw [if_neg hs] at h
    have hx := Except.ok.inj h
    rw [← hx]

theorem getTracks_tracks_sublist (st : Store) (q : QueryParams) (r : TracksResult)
    (h : getTracks st q = Except.ok r) :
    r.tracks.Sublist (sortTracks (q.sort.getD "createdAt")
      ((q.order.getD "desc") == "asc") (st.tracks.filter (matchesFilter q))) := by
  simp only [getTracks] at h
  by_cases hs : ((q.page.getD 1 : Int) - 1) * (q.limit.getD 10 : Int) < 0
  · rw [if_pos hs] at h
    exact Except.noConfusion h
  · rw [if_neg hs] at h
    have hx := Except.ok.inj h
    rw [← hx]
    by_cases hl : (q.limit.getD 10 == 0) = true
    · simp only [hl, if_true]
      exact List.drop_sublist _ _
    · have hl2 : (q.limit.getD 10 == 0) = false := by simpa using hl
      simp only [hl2, Bool.false_eq_true, if_false]
      exact (List.take_sublist _ _).trans (List.drop_sublist _ _)

/-! Injectivity of the decimal id representation (`Date.now().toString()`). -/


theorem charVal_digitChar (m : Nat) (h : m < 10) :
    charVal (Nat.digitChar m) = m := by
  interval_cases m <;> rfl

theorem evalDigits_toDigitsCore :
    ∀ (fuel n : Nat) (ds : List Char), n < fuel →
      evalDigits (Nat.toDigitsCore 10 fuel n ds) = n * 10 ^ ds.length + evalDigits ds := by
  intro fuel
  induction fuel with
  | zero => intro n ds h; omega
  | succ fuel ih =>
    intro n ds h
    rw [Nat.toDigitsCore]
    by_cases hz : n / 10 = 0
    · simp only [hz, if_true]
      have hlt : n < 10 := by omega
      have hmod : n % 10 = n := Nat.mod_eq_of_lt hlt
      simp only [evalDigits, hmod]
      rw [charVal_digitChar n hlt]
    · have hn1 : 1 ≤ n := by
        by_contra hc
        exact hz (by omega)
      have hdiv_lt : n / 10 < n := Nat.div_lt_self (by omega) (by omega)
      have hfuel : n / 10 < fuel := by omega
      simp only [hz, if_false]
      rw [ih (n / 10) (Nat.digitChar (n % 10) :: ds) hfuel]
      have hmod_lt : n % 10 < 10 := Nat.mod_lt n (by omega)
      simp only [evalDigits, List.length_cons, charVal_digitChar (n % 10) hmod_lt]
      have hsplit : n / 10 * 10 + n % 10 = n := by omega
      calc n / 10 * 10 ^ (ds.length + 1) + (n % 10 * 10 ^ ds.length + evalDigits ds)
          = (n / 10 * 10 + n % 10) * 10 ^ ds.length + evalDigits ds := by ring
        _ = n * 10 ^ ds.length + evalDigits ds := by rw [hsplit]

theorem evalDigits_toDigits (n : Nat) : evalDigits (Nat.toDigits 10 n) = n := by
  have h := evalDigits_toDigitsCore (n + 1) n [] (Nat.lt_succ_self n)
  simpa [Nat.toDigits, evalDigits] using h

theorem natRepr_injective {n m : Nat} (h : Nat.repr n = Nat.repr m) : n = m := by
  have hlist : Nat.toDigits 10 n = Nat.toDigits 10 m := by
    have h2 : (Nat.toDigits 10 n).asString = (Nat.toDigits 10 m).asString := h
    exact List.asString_inj.mp h2
  calc n = evalDigits (Nat.toDigits 10 n) := (evalDigits_toDigits n).symm
    _ = evalDigits (Nat.toDigits 10 m) := by rw [hlist]
    _ = m := evalDigits_toDigits m

theorem genId_injective {n m : Nat} (h : n ≠ m) : genId n ≠ genId m :=
  fun hc => h (natRepr_injective hc)


/-! Claim theorems. -/

/-- C1: the claim says `deleteTrack` on a track with a non-empty `audioFile`
removes the media object from the Media Store before removing the record, and
that the object is gone afterwards.  The code removes the record first
(`findOneAndDelete`), so the subsequent `deleteAudioFile id` looks up the
already-deleted record, finds nothing and returns `false` without contacting
the media store: the media object survives the call.  This theorem evaluates
the code at the failing input: the delete reports success and empties the
collection, yet `tracks/1` is still hosted; the last conjunct shows that
`deleteAudioFile` run while the record still exists would have removed it. -/
theorem deleteTrack_cascade_bug :
    (deleteTrack stMedia "1" "t").1 = true ∧
    (deleteTrack stMedia "1" "t").2.tracks = [] ∧
    (cloudFolder ++ "/" ++ "1") ∈ (deleteTrack stMedia "1" "t").2.media ∧
    (deleteAudioFile stMedia "1" "t").1 = true ∧
    (deleteAudioFile stMedia "1" "t").2.media = [] := by
  refine ⟨rfl, rfl, ?_, rfl, rfl⟩
  show (cloudFolder ++ "/" ++ "1") ∈ (["tracks/1"] : List String)
  decide

/-- C2 counterexample: two `createTrack` calls at the same clock instant
(millisecond 5) do not generate distinct ids — the id is
`Date.now().toString()` for both, and the second call is rejected by the
store's unique index instead of creating a track with a fresh id. -/
theorem createTrack_same_instant_collision :
    createTrack { tracks := [], media := [] } ntr1 5 "t" = Except.ok (trkFive, stFive) ∧
    trkFive.id = genId 5 ∧
    ntr2.slug ≠ ntr1.slug ∧
    createTrack stFive ntr2 5 "t" = Except.error "E11000 duplicate key" := by
  exact ⟨rfl, by decide, by decide, rfl⟩

/-- C2 (amended): ids generated at distinct clock instants are distinct; a
create whose generated id already exists in the store is rejected with the
duplicate-key error, and a successful create preserves uniqueness of `id`
across the store. -/
theorem createTrack_id_unique (st : Store) (tr : NewTrack) (nowMs : Nat)
    (nowIso : String) :
    (∀ n m : Nat, n ≠ m → genId n ≠ genId m) ∧
    ((st.tracks.map Track.id).Nodup →
      ∀ t st2, createTrack st tr nowMs nowIso = Except.ok (t, st2) →
        (st2.tracks.map Track.id).Nodup) ∧
    (genId nowMs ∈ st.tracks.map Track.id →
      createTrack st tr nowMs nowIso = Except.error "E11000 duplicate key") := by
  refine ⟨fun n m => genId_injective, ?_, ?_⟩
  · intro hnd t st2 hok
    unfold createTrack at hok
    by_cases hany :
        (st.tracks.any fun x => x.id == genId nowMs || x.slug == tr.slug) = true
    · rw [if_pos hany] at hok
      exact Except.noConfusion hok
    · rw [if_neg hany] at hok
      have hpair := Except.ok.inj hok
      have hst2 : st2 = { st with tracks := st.tracks ++
          [{ id := genId nowMs, title := tr.title, artist := tr.artist,
             album := tr.album, genres := tr.genres, coverImage := tr.coverImage,
             audioFile := tr.audioFile, slug := tr.slug, createdAt := nowIso,
             updatedAt := nowIso }] } := (congrArg Prod.snd hpair).symm
      rw [hst2]
      simp only [List.map_append, List.map_cons, List.map_nil]
      rw [List.nodup_append]
      refine ⟨hnd, List.nodup_singleton _, ?_⟩
      intro a ha hb
      rcases List.mem_singleton.mp hb with rfl
      have hany2 : (st.tracks.any fun x => x.id == genId nowMs || x.slug == tr.slug)
          = false := by
        cases hx : (st.tracks.any fun x => x.id == genId nowMs || x.slug == tr.slug)
        · rfl
        · exact absurd hx hany
      rw [List.any_eq_false] at hany2
      obtain ⟨x, hx, hxe⟩ := List.mem_map.mp ha
      have hno := hany2 x hx
      simp only [Bool.or_eq_true, not_or] at hno
      exact hno.1 (by simp [hxe])
  · intro hmem
    obtain ⟨x, hx, hxe⟩ := List.mem_map.mp hmem
    unfold createTrack
    rw [if_pos]
    rw [List.any_eq_true]
    exact ⟨x, hx, by simp [hxe]⟩

/-- C2 witness: the amended statement evaluated on concrete data — instants
1 and 2 give distinct ids, the store after a successful create has pairwise
distinct ids, and a create colliding on the generated id is rejected. -/
theorem createTrack_id_unique_witness :
    genId 1 ≠ genId 2 ∧
    (stFive.tracks.map Track.id).Nodup ∧
    createTrack stFive ntr2 5 "t" = Except.error "E11000 duplicate key" := by
  refine ⟨(createTrack_id_unique { tracks := [], media := [] } ntr1 5 "t").1 1 2
      (by decide), ?_, ?_⟩
  · exact (createTrack_id_unique { tracks := [], media := [] } ntr1 5 "t").2.1
      (by decide) trkFive stFive rfl
  · exact (createTrack_id_unique stFive ntr2 5 "t").2.2 (by decide)

/-- C3 counterexample: `updateTrack` with a partial-fields argument that
contains an `id` field does change the record's id — the spread
`{ ...updates, updatedAt }` writes the `id` through to the store. -/
theorem updateTrack_id_mutation :
    stU.tracks.map Track.id = ["1"] ∧
    ((updateTrack stU "1" { id := some "2" } "t").2.tracks.map Track.id) = ["2"] ∧
    ((updateTrack stU "1" { id := some "2" } "t").1.map Track.id) = some "2" := by
  refine ⟨?_, ?_, ?_⟩ <;> decide

/-- C3 (amended): for every partial-fields argument that does not itself
contain an `id` field, `updateTrack` leaves every record's id unchanged, and
the record it returns carries the requested id. -/
theorem updateTrack_id_frame (st : Store) (i now : String) (u : TrackUpdate)
    (h : u.id = none) :
    ((updateTrack st i u now).2.tracks.map Track.id = st.tracks.map Track.id) ∧
    (∀ t, (updateTrack st i u now).1 = some t → t.id = i) := by
  refine ⟨updateTrack_map_id h st i now, ?_⟩
  intro t ht
  have ht2 : (updateFirst i u now st.tracks).1 = some t := ht
  exact updateFirst_fst_id h i now st.tracks t ht2

/-- C3 witness: an update without an `id` field on a concrete store leaves
the ids untouched and returns the record with the requested id. -/
theorem updateTrack_id_frame_witness :
    ((updateTrack stU "1" { title := some "B" } "t").2.tracks.map Track.id
      = stU.tracks.map Track.id) ∧
    (∀ t, (updateTrack stU "1" { title := some "B" } "t").1 = some t →
      t.id = "1") :=
  updateTrack_id_frame stU "1" "t" { title := some "B" } rfl

/-- C4: `deleteMultipleTracks` partitions the input ids: `success` and
`failed` are subsequences of the input (order preserved within each),
their lengths sum to the input length, and processing is sequential — an id
whose delete succeeds is prepended to `success` and processing continues on
the updated store, while a not-found id goes to `failed` and processing of
the remaining ids continues on the unchanged store (one failure does not
abort the batch). -/
theorem deleteMultipleTracks_sequential (st : Store) (ids : List String)
    (now : String) :
    ((deleteMultipleTracks st ids now).1.success).Sublist ids ∧
    ((deleteMultipleTracks st ids now).1.failed).Sublist ids ∧
    ((deleteMultipleTracks st ids now).1.success.length
      + (deleteMultipleTracks st ids now).1.failed.length = ids.length) ∧
    (∀ i rest, (deleteTrack st i now).1 = true →
      (deleteMultipleTracks st (i :: rest) now).1.success
        = i :: (deleteMultipleTracks (deleteTrack st i now).2 rest now).1.success ∧
      (deleteMultipleTracks st (i :: rest) now).1.failed
        = (deleteMultipleTracks (deleteTrack st i now).2 rest now).1.failed) ∧
    (∀ i rest, (deleteTrack st i now).1 = false →
      (deleteMultipleTracks st (i :: rest) now).1.success
        = (deleteMultipleTracks st rest now).1.success ∧
      (deleteMultipleTracks st (i :: rest) now).1.failed
        = i :: (deleteMultipleTracks st rest now).1.failed) := by
  refine ⟨dmt_success_sublist now ids st, dmt_failed_sublist now ids st,
    dmt_length now ids st, ?_, ?_⟩
  · intro i rest hd
    rw [dmt_cons_true rest hd]
    exact ⟨rfl, rfl⟩
  · intro i rest hd
    rw [dmt_cons_false rest hd]
    exact ⟨rfl, rfl⟩

/-- C4 witness: the spec's example — store with `a` and `b`, input
`["a", "missing", "b"]` — yields `success = ["a", "b"]`,
`failed = ["missing"]`, order preserved, and the failed head does not stop
the processing of the tail. -/
theorem deleteMultipleTracks_sequential_witness :
    (deleteMultipleTracks stAB ["a", "missing", "b"] "t").1
      = ⟨["a", "b"], ["missing"]⟩ ∧
    ((deleteMultipleTracks stAB ["a", "missing", "b"] "t").1.success).Sublist
      ["a", "missing", "b"] ∧
    ((deleteMultipleTracks stAB ["missing", "b"] "t").1.failed
      = "missing" :: (deleteMultipleTracks stAB ["b"] "t").1.failed) := by
  refine ⟨by decide,
    (deleteMultipleTracks_sequential stAB ["a", "missing", "b"] "t").1, ?_⟩
  exact ((deleteMultipleTracks_sequential stAB ["missing", "b"] "t").2.2.2.2
    "missing" ["b"] (by decide)).2

theorem sortTracks_createdAt_AB (b : Bool) :
    sortTracks "createdAt" b [trkA, trkB] = [trkA, trkB] := by
  have key : ∀ (r : Track → Track → Prop) (h : DecidableRel r), r trkA trkB →
      @List.insertionSort Track r h [trkA, trkB] = [trkA, trkB] := by
    intro r h hr
    simp [List.insertionSort, List.orderedInsert, hr]
  cases b
  · show @List.insertionSort Track
      (fun a b => getField b "createdAt" ≤ getField a "createdAt") _ [trkA, trkB]
      = [trkA, trkB]
    exact key _ _ (le_refl "c")
  · show @List.insertionSort Track
      (fun a b => getField a "createdAt" ≤ getField b "createdAt") _ [trkA, trkB]
      = [trkA, trkB]
    exact key _ _ (le_refl "c")

/-- C5 counterexample: the claim fails at representable inputs — `limit: 0`
means no limit under the store's cursor semantics, so both stored records
come back (more than the claimed "at most limit"), and `page: 0` with a
positive limit produces a negative skip that the store rejects instead of
returning a slice. -/
theorem getTracks_limit_zero_unbounded :
    getTracks stAB { pE with limit := some 0 }
      = Except.ok { tracks := [trkA, trkB], total := 2 } ∧
    ¬([trkA, trkB].length
      ≤ ({ pE with limit := some 0 } : QueryParams).limit.getD 10) ∧
    getTracks stAB { pE with page := some 0 }
      = Except.error "skip value must be non-negative" := by
  refine ⟨?_, by decide, rfl⟩
  show Except.ok (TracksResult.mk ((sortTracks "createdAt" false [trkA, trkB]).drop 0) 2)
    = Except.ok { tracks := [trkA, trkB], total := 2 }
  rw [sortTracks_createdAt_AB]
  rfl

/-- C5 (amended): for every query whose page (after defaulting to 1) is at
least 1, `getTracks` succeeds; `total` is the number of records matching the
filter before pagination and is independent of `page` and `limit`; with a
positive limit the returned page is the slice of the filtered, sorted set
obtained by skipping `(page-1)*limit` records and taking at most `limit`
records; `limit = 0` disables the limit, returning every record after the
skip; `page` defaults to 1 and `limit` to 10; and a query with `page = 0`
and a positive limit is rejected by the store (negative skip) instead of
returning a slice. -/
theorem getTracks_pagination_spec (st : Store) (p : QueryParams)
    (hp : 1 ≤ p.page.getD 1) :
    (∀ r, getTracks st p = Except.ok r →
      r.total = (st.tracks.filter (matchesFilter p)).length) ∧
    (∀ (pg lim : Option Nat) (r r2 : TracksResult),
      getTracks st { p with page := pg, limit := lim } = Except.ok r →
      getTracks st p = Except.ok r2 → r.total = r2.total) ∧
    (∃ r, getTracks st p = Except.ok r ∧
      (p.limit.getD 10 ≠ 0 →
        r.tracks = ((sortTracks (p.sort.getD "createdAt")
            ((p.order.getD "desc") == "asc")
            (st.tracks.filter (matchesFilter p))).drop
          ((p.page.getD 1 - 1) * p.limit.getD 10)).take (p.limit.getD 10)) ∧
      (p.limit.getD 10 = 0 →
        r.tracks = (sortTracks (p.sort.getD "createdAt")
            ((p.order.getD "desc") == "asc")
            (st.tracks.filter (matchesFilter p))).drop
          ((p.page.getD 1 - 1) * p.limit.getD 10))) ∧
    (getTracks st { p with page := none } = getTracks st { p with page := some 1 }) ∧
    (getTracks st { p with limit := none }
      = getTracks st { p with limit := some 10 }) ∧
    (p.limit.getD 10 ≠ 0 →
      getTracks st { p with page := some 0 }
        = Except.error "skip value must be non-negative") := by
  refine ⟨?_, ?_, ?_, rfl, rfl, ?_⟩
  · intro r hr
    exact getTracks_total st p r hr
  · intro pg lim r r2 h1 h2
    have e1 := getTracks_total st { p with page := pg, limit := lim } r h1
    have e2 := getTracks_total st p r2 h2
    exact e1.trans e2.symm
  · refine ⟨_, getTracks_ok_of_page_pos st p hp, ?_, ?_⟩
    · intro hl
      have hl2 : (p.limit.getD 10 == 0) = false := beq_eq_false_iff_ne.mpr hl
      simp only [hl2, Bool.false_eq_true, if_false]
    · intro hl
      have hl2 : (p.limit.getD 10 == 0) = true := beq_iff_eq.mpr hl
      simp only [hl2, if_true]
  · intro hl
    have hl2 : (0 : Int) < (p.limit.getD 10 : Int) := by
      exact_mod_cast Nat.pos_of_ne_zero hl
    simp only [getTracks, Option.getD_some, Nat.cast_zero]
    rw [if_pos (show ((0 : Int) - 1) * (p.limit.getD 10 : Int) < 0 by omega)]

/-- C5 witness: page 2 with limit 1 on the two-track store returns the
second record with `total` still 2 (pre-pagination count), and page 0 is
rejected by the store. -/
theorem getTracks_pagination_spec_witness :
    getTracks stAB { pE with page := some 2, limit := some 1 }
      = Except.ok { tracks := [trkB], total := 2 } ∧
    (∀ r, getTracks stAB { pE with page := some 2, limit := some 1 }
        = Except.ok r →
      r.total = (stAB.tracks.filter
        (matchesFilter { pE with page := some 2, limit := some 1 })).length) ∧
    getTracks stAB { pE with page := some 0, limit := some 1 }
      = Except.error "skip value must be non-negative" := by
  refine ⟨?_, (getTracks_pagination_spec stAB
    { pE with page := some 2, limit := some 1 } (by decide)).1, ?_⟩
  · show Except.ok
        (TracksResult.mk (((sortTracks "createdAt" false [trkA, trkB]).drop 1).take 1) 2)
      = Except.ok { tracks := [trkB], total := 2 }
    rw [sortTracks_createdAt_AB]
    rfl
  · exact (getTracks_pagination_spec stAB { pE with limit := some 1 }
      (by decide)).2.2.2.2.2 (by decide)

/-- C6: an empty `search` string disables the search filter — the result is
identical (same page, same total) to the query with no `search` at all. -/
theorem getTracks_empty_search (st : Store) (p : QueryParams) :
    getTracks st { p with search := some "" }
      = getTracks st { p with search := none } := rfl

/-- C7: `deleteAudioFile` returns `false` and changes neither store when the
track is absent or its `audioFile` is empty; otherwise it returns `true`,
removes the media object `folder/id` from the Media Store, and clears the
`audioFile` field on the record (no dangling reference on subsequent reads). -/
theorem deleteAudioFile_spec (st : Store) (i now : String) :
    (getTrackById st i = none → deleteAudioFile st i now = (false, st)) ∧
    (∀ t, getTrackById st i = some t → t.audioFile = "" →
      deleteAudioFile st i now = (false, st)) ∧
    (∀ t, getTrackById st i = some t → t.audioFile ≠ "" →
      (deleteAudioFile st i now).1 = true ∧
      (deleteAudioFile st i now).2.media
        = st.media.filter (fun m => m != cloudFolder ++ "/" ++ i) ∧
      (cloudFolder ++ "/" ++ i) ∉ (deleteAudioFile st i now).2.media ∧
      (∃ t2, getTrackById ((deleteAudioFile st i now).2) i = some t2 ∧
        t2.audioFile = "")) := by
  refine ⟨?_, ?_, ?_⟩
  · intro h
    simp [deleteAudioFile, h]
  · intro t ht he
    simp [deleteAudioFile, ht, he]
  · intro t ht hne
    have hb : (t.audioFile == "") = false := beq_eq_false_iff_ne.mpr hne
    have hd : deleteAudioFile st i now
        = (true,
           (updateTrack
             { st with media := st.media.filter (fun m => m != cloudFolder ++ "/" ++ i) }
             i { audioFile := some "" } now).2) := by
      simp [deleteAudioFile, ht, hb]
    rw [hd]
    refine ⟨rfl, rfl, ?_, ?_⟩
    · intro hc
      have hmem : (cloudFolder ++ "/" ++ i)
          ∈ st.media.filter (fun m => m != cloudFolder ++ "/" ++ i) := hc
      have := List.of_mem_filter hmem
      simp at this
    · obtain ⟨h1, h2⟩ := @updateFirst_found { audioFile := some "" } rfl i now
        st.tracks t ht
      exact ⟨applyUpdate { audioFile := some "" } now t, h2, rfl⟩

/-- C7 witness: on the concrete store holding `trk1` (audio `u`, hosted
object `tracks/1`), `deleteAudioFile` reports success, removes the object
and clears the field. -/
theorem deleteAudioFile_spec_witness :
    (deleteAudioFile stMedia "1" "t").1 = true ∧
    (deleteAudioFile stMedia "1" "t").2.media
      = stMedia.media.filter (fun m => m != cloudFolder ++ "/" ++ "1") ∧
    (cloudFolder ++ "/" ++ "1") ∉ (deleteAudioFile stMedia "1" "t").2.media ∧
    (∃ t2, getTrackById ((deleteAudioFile stMedia "1" "t").2) "1" = some t2 ∧
      t2.audioFile = "") :=
  (deleteAudioFile_spec stMedia "1" "t").2.2 trk1 rfl (by decide)

/-- C8: absent id or slug yields a null result from the readers, and
`deleteTrack` on an absent id returns `false` leaving the store unchanged;
in particular a second `deleteTrack` with the same id returns `false`. -/
theorem absent_id_null_results (st : Store) (i s now1 now2 : String)
    (hnd : (st.tracks.map Track.id).Nodup) :
    (getTrackById st i = none ↔ ∀ t ∈ st.tracks, t.id ≠ i) ∧
    (getTrackBySlug st s = none ↔ ∀ t ∈ st.tracks, t.slug ≠ s) ∧
    ((∀ t ∈ st.tracks, t.id ≠ i) → deleteTrack st i now1 = (false, st)) ∧
    ((deleteTrack ((deleteTrack st i now1).2) i now2).1 = false) := by
  refine ⟨?_, ?_, ?_, ?_⟩
  · simp [getTrackById]
  · simp [getTrackBySlug]
  · intro h
    apply deleteTrack_not_found
    intro hc
    obtain ⟨t, htmem, hid⟩ := List.mem_map.mp hc
    exact h t htmem hid
  · have hmap := deleteTrack_map_id st i now1
    have hnot : i ∉ ((deleteTrack st i now1).2).tracks.map Track.id := by
      rw [hmap]
      exact hnd.not_mem_erase
    cases h2 : (deleteTrack ((deleteTrack st i now1).2) i now2).1 with
    | false => rfl
    | true =>
      exact absurd ((deleteTrack_fst_true_iff _ _ _).mp h2) hnot

/-- C8 witness: on the store with tracks `a` and `b`, the reader
characterisations hold at id `a` / slug `sa`, and deleting `a` twice makes
the second call return `false`. -/
theorem absent_id_null_results_witness :
    (getTrackById stAB "a" = none ↔ ∀ t ∈ stAB.tracks, t.id ≠ "a") ∧
    (getTrackBySlug stAB "sa" = none ↔ ∀ t ∈ stAB.tracks, t.slug ≠ "sa") ∧
    ((∀ t ∈ stAB.tracks, t.id ≠ "a") → deleteTrack stAB "a" "t" = (false, stAB)) ∧
    ((deleteTrack ((deleteTrack stAB "a" "t").2) "a" "t").1 = false) :=
  absent_id_null_results stAB "a" "sa" "t" "t" (by decide)


theorem sortTracks_sorted_desc (f : String) (l : List Track) :
    (sortTracks f false l).Pairwise (fun a b => getField b f ≤ getField a f) :=
  List.sorted_insertionSort _ l

theorem sortTracks_sorted_asc (f : String) (l : List Track) :
    (sortTracks f true l).Pairwise (fun a b => getField a f ≤ getField b f) :=
  List.sorted_insertionSort _ l

/-- C9: ascending order is produced only by the exact string `asc`; any
other `order` value — and an absent one — behaves as `desc`, and any page
returned in that case is sorted descending on the sort key (ascending when
`order = asc`). -/
theorem getTracks_order_asc_only (st : Store) (p : QueryParams) (o : String)
    (h : o ≠ "asc") :
    (getTracks st { p with order := some o }
      = getTracks st { p with order := some "desc" }) ∧
    (getTracks st { p with order := none }
      = getTracks st { p with order := some "desc" }) ∧
    (∀ r, getTracks st { p with order := some o } = Except.ok r →
      r.tracks.Pairwise
        (fun a b => getField b (p.sort.getD "createdAt")
          ≤ getField a (p.sort.getD "createdAt"))) ∧
    (∀ r, getTracks st { p with order := some "asc" } = Except.ok r →
      r.tracks.Pairwise
        (fun a b => getField a (p.sort.getD "createdAt")
          ≤ getField b (p.sort.getD "createdAt"))) := by
  have hb : (o == "asc") = false := beq_eq_false_iff_ne.mpr h
  have h1 : getTracks st { p with order := some o }
      = getTracks st { p with order := some "desc" } := by
    simp only [getTracks]
    rw [show ((some o : Option String).getD "desc" == "asc") = false from hb]
    exact rfl
  refine ⟨h1, rfl, ?_, ?_⟩
  · intro r hr
    have hsub := getTracks_tracks_sublist st { p with order := some o } r hr
    rw [show ((({ p with order := some o } : QueryParams).order.getD "desc")
      == "asc") = false from hb] at hsub
    exact List.Pairwise.sublist hsub (sortTracks_sorted_desc _ _)
  · intro r hr
    have hsub := getTracks_tracks_sublist st { p with order := some "asc" } r hr
    rw [show ((({ p with order := some "asc" } : QueryParams).order.getD "desc")
      == "asc") = true from rfl] at hsub
    exact List.Pairwise.sublist hsub (sortTracks_sorted_asc _ _)

/-- C9 witness: the concrete non-`asc` order string `up` behaves as `desc`
on the two-track store, and the pages it concretely returns (for `up` and
for `asc`) are sorted in the corresponding direction. -/
theorem getTracks_order_asc_only_witness :
    (getTracks stAB { pE with order := some "up" }
      = getTracks stAB { pE with order := some "desc" }) ∧
    (getTracks stAB { pE with order := none }
      = getTracks stAB { pE with order := some "desc" }) ∧
    (({ tracks := [trkA, trkB], total := 2 } : TracksResult).tracks.Pairwise
      (fun a b => getField b (pE.sort.getD "createdAt")
        ≤ getField a (pE.sort.getD "createdAt"))) ∧
    (({ tracks := [trkA, trkB], total := 2 } : TracksResult).tracks.Pairwise
      (fun a b => getField a (pE.sort.getD "createdAt")
        ≤ getField b (pE.sort.getD "createdAt"))) := by
  have e1 : getTracks stAB { pE with order := some "up" }
      = Except.ok { tracks := [trkA, trkB], total := 2 } := by
    show Except.ok
        (TracksResult.mk (((sortTracks "createdAt" false [trkA, trkB]).drop 0).take 10) 2) = _
    rw [sortTracks_createdAt_AB]
    rfl
  have e2 : getTracks stAB { pE with order := some "asc" }
      = Except.ok { tracks := [trkA, trkB], total := 2 } := by
    show Except.ok
        (TracksResult.mk (((sortTracks "createdAt" true [trkA, trkB]).drop 0).take 10) 2) = _
    rw [sortTracks_createdAt_AB]
    rfl
  have h := getTracks_order_asc_only stAB pE "up" (by decide)
  exact ⟨h.1, h.2.1, h.2.2.1 { tracks := [trkA, trkB], total := 2 } e1,
    h.2.2.2 { tracks := [trkA, trkB], total := 2 } e2⟩

/-- C10: with pairwise-distinct stored ids, `deleteMultipleTracks` puts any
repeated input id into `success` at most once (only an occurrence processed
while the record still exists — the first one — can succeed; an id absent
from the store never reaches `success`), later occurrences land in `failed`,
and the two output lists always partition the input by length and by
per-id multiplicity. -/
theorem deleteMultipleTracks_duplicates (st : Store) (ids : List String)
    (now : String) (hnd : (st.tracks.map Track.id).Nodup) :
    ((deleteMultipleTracks st ids now).1.success.length
      + (deleteMultipleTracks st ids now).1.failed.length = ids.length) ∧
    (∀ a, (deleteMultipleTracks st ids now).1.success.count a ≤ 1) ∧
    (∀ a, (deleteMultipleTracks st ids now).1.success.count a
      + (deleteMultipleTracks st ids now).1.failed.count a = ids.count a) ∧
    (∀ a, a ∉ st.tracks.map Track.id →
      a ∉ (deleteMultipleTracks st ids now).1.success) :=
  ⟨dmt_length now ids st,
   fun a => (dmt_count now ids st hnd a).1,
   fun a => (dmt_count now ids st hnd a).2.1,
   fun a => (dmt_count now ids st hnd a).2.2⟩

/-- C10 witness: input `["a", "a"]` on the store holding `a` once — the
first occurrence succeeds, the repeat fails, lengths sum to the input
length. -/
theorem deleteMultipleTracks_duplicates_witness :
    ((deleteMultipleTracks stAB ["a", "a"] "t").1 = ⟨["a"], ["a"]⟩) ∧
    ((deleteMultipleTracks stAB ["a", "a"] "t").1.success.count "a" ≤ 1) ∧
    ((deleteMultipleTracks stAB ["a", "a"] "t").1.success.length
      + (deleteMultipleTracks stAB ["a", "a"] "t").1.failed.length
      = (["a", "a"] : List String).length) := by
  refine ⟨by decide, ?_, ?_⟩
  · exact (deleteMultipleTracks_duplicates stAB ["a", "a"] "t" (by decide)).2.1 "a"
  · exact (deleteMultipleTracks_duplicates stAB ["a", "a"] "t" (by decide)).1

end MusicTracker
